import Mathlib

/-!
Verification of the backtest analysis tools
(`cmd/backtest/analyze_backtests.py` and `cmd/backtest/compare_results.py`).

Python floats are modelled as exact rationals (`ℚ`): every property checked
here concerns comparisons, guarded divisions and structural reductions that
the spec states in exact arithmetic.  Timestamps are modelled as calendar
records with an explicit UTC offset, and timestamp subtraction goes through
days-since-epoch arithmetic exactly as `datetime` arithmetic does.
-/

namespace Backtest

/-- A timestamp as produced by `datetime.fromisoformat`: calendar fields plus
an explicit UTC offset in minutes (`0` both for naive timestamps and for the
`+00:00` offset produced from a trailing `Z`). -/
structure DateTime where
  year : Int
  month : Nat
  day : Nat
  hour : Nat
  minute : Nat
  second : Nat
  offsetMinutes : Int
deriving DecidableEq

/-- Gregorian leap-year rule, as used by `datetime` date validation. -/
def leapYear (y : Int) : Bool :=
  y % 4 = 0 && (y % 100 != 0 || y % 400 = 0)

/-- Number of days in a month, as used by `datetime` date validation. -/
def daysInMonth (y : Int) (m : Nat) : Nat :=
  if m = 2 then (if leapYear y then 29 else 28)
  else if m = 4 ∨ m = 6 ∨ m = 9 ∨ m = 11 then 30
  else 31

/-- Days since 1970-01-01 of a Gregorian date (the standard `days_from_civil`
algorithm; all divisions act on non-negative operands, so truncated division
agrees with the mathematical value). -/
def daysFromCivil (y : Int) (m d : Nat) : Int :=
  let yAdj : Int := if m ≤ 2 then y - 1 else y
  let era : Int := (if 0 ≤ yAdj then yAdj else yAdj - 399) / 400
  let yoe : Int := yAdj - era * 400
  let mp : Int := if 2 < m then (m : Int) - 3 else (m : Int) + 9
  let doy : Int := (153 * mp + 2) / 5 + (d : Int) - 1
  let doe : Int := yoe * 365 + yoe / 4 - yoe / 100 + doy
  era * 146097 + doe - 719468

/-- Absolute time in seconds since the epoch, with the UTC offset applied —
the quantity aware-`datetime` subtraction is computed from. -/
def DateTime.toEpochSeconds (t : DateTime) : Int :=
  daysFromCivil t.year t.month t.day * 86400
    + (t.hour : Int) * 3600 + (t.minute : Int) * 60 + (t.second : Int)
    - t.offsetMinutes * 60

/-- One closed trade, the record built by `parse_csv`
(analyze_backtests.py lines 20-32, compare_results.py lines 19-31). -/
structure Trade where
  ticker : String
  entryTime : DateTime
  exitTime : DateTime
  entryPrice : ℚ
  exitPrice : ℚ
  shares : Int
  reason : String
  grossPnL : ℚ
  commission : ℚ
  netPnL : ℚ
  direction : String
deriving DecidableEq

/-! ### Parsing model -/

/-- Value of a decimal digit character. -/
def digitVal (c : Char) : Nat := c.toNat - '0'.toNat

/-- A non-empty all-digit character sequence. -/
def isDigits (s : List Char) : Bool := !s.isEmpty && s.all (·.isDigit)

/-- Decimal value of a digit sequence. -/
def digitsToNat (s : List Char) : Nat :=
  s.foldl (fun a c => a * 10 + digitVal c) 0

/-- Value of a fractional digit sequence (the digits after the point). -/
def fracVal (s : List Char) : ℚ :=
  s.foldr (fun c a => ((digitVal c : ℚ) + a) / 10) 0

/-- Model of Python `float(...)` restricted to the decimal literals this
tool's inputs use: optional sign, an integer part, and an optional
fractional part.  Returns `none` on anything else (non-numeric content). -/
def parsePyFloat (s : String) : Option ℚ :=
  let signed : ℚ × List Char :=
    match s.data with
    | '-' :: r => (-1, r)
    | '+' :: r => (1, r)
    | r => (1, r)
  match (signed.2).splitOn '.' with
  | [ip] => if isDigits ip then some (signed.1 * (digitsToNat ip : ℚ)) else none
  | [ip, fp] =>
      if isDigits ip && isDigits fp then
        some (signed.1 * ((digitsToNat ip : ℚ) + fracVal fp))
      else none
  | _ => none

/-- Model of Python `int(...)` restricted to optionally signed decimal
integer literals.  Returns `none` on anything else. -/
def parsePyInt (s : String) : Option Int :=
  match s.data with
  | '-' :: r => if isDigits r then some (-(digitsToNat r : Int)) else none
  | '+' :: r => if isDigits r then some ((digitsToNat r : Int)) else none
  | r => if isDigits r then some ((digitsToNat r : Int)) else none

/-- Build a timestamp from the digit characters of its fields, validating
ranges the way `datetime` construction does. -/
def mkDateTime (y1 y2 y3 y4 m1 m2 d1 d2 h1 h2 n1 n2 s1 s2 : Char)
    (offsetMinutes : Int) : Option DateTime :=
  if ([y1, y2, y3, y4, m1, m2, d1, d2, h1, h2, n1, n2, s1, s2].all (·.isDigit)) then
    let y : Int := (digitsToNat [y1, y2, y3, y4] : Int)
    let mo := digitsToNat [m1, m2]
    let d := digitsToNat [d1, d2]
    let h := digitsToNat [h1, h2]
    let mi := digitsToNat [n1, n2]
    let s := digitsToNat [s1, s2]
    if 1 ≤ mo ∧ mo ≤ 12 ∧ 1 ≤ d ∧ d ≤ daysInMonth y mo ∧ h ≤ 23 ∧ mi ≤ 59 ∧ s ≤ 59 then
      some ⟨y, mo, d, h, mi, s, offsetMinutes⟩
    else none
  else none

/-- Model of Python `datetime.fromisoformat` restricted to the shapes this
tool's inputs use: `YYYY-MM-DDTHH:MM:SS`, optionally followed by a
`+HH:MM` or `-HH:MM` offset.  `none` on malformed input (wrong shape,
non-digit characters, or out-of-range calendar fields). -/
def fromisoChars : List Char → Option DateTime
  | [y1, y2, y3, y4, '-', m1, m2, '-', d1, d2, 'T', h1, h2, ':', n1, n2, ':', s1, s2] =>
      mkDateTime y1 y2 y3 y4 m1 m2 d1 d2 h1 h2 n1 n2 s1 s2 0
  | [y1, y2, y3, y4, '-', m1, m2, '-', d1, d2, 'T', h1, h2, ':', n1, n2, ':', s1, s2,
     sg, o1, o2, ':', o3, o4] =>
      if (sg = '+' ∨ sg = '-') ∧ [o1, o2, o3, o4].all (·.isDigit) then
        let oh := digitsToNat [o1, o2]
        let om := digitsToNat [o3, o4]
        if oh ≤ 23 ∧ om ≤ 59 then
          let off : Int := (oh : Int) * 60 + (om : Int)
          mkDateTime y1 y2 y3 y4 m1 m2 d1 d2 h1 h2 n1 n2 s1 s2
            (if sg = '-' then -off else off)
        else none
      else none
  | _ => none

/-- `datetime.fromisoformat` on a string. -/
def fromisoformat (s : String) : Option DateTime := fromisoChars s.data

/-- Python `str.replace` of `'Z'` by `"+00:00"`: every occurrence is
replaced (the source applies it to the whole timestamp field). -/
def replaceZchars : List Char → List Char
  | [] => []
  | c :: cs =>
      if c = 'Z' then '+' :: '0' :: '0' :: ':' :: '0' :: '0' :: replaceZchars cs
      else c :: replaceZchars cs

/-- `value.replace('Z', '+00:00')` on a string. -/
def replaceZ (s : String) : String := ⟨replaceZchars s.data⟩

/-- One `csv.DictReader` row: each column is either present with a (possibly
empty) string value, or absent (`none`) when the header lacks the column. -/
structure Row where
  ticker : Option String
  entryTime : Option String
  exitTime : Option String
  entryPrice : Option String
  exitPrice : Option String
  shares : Option String
  reason : Option String
  grossPnL : Option String
  commission : Option String
  netPnL : Option String
  direction : Option String

/-- The exceptions `parse_csv` can raise on a bad row: `KeyError` for a
missing required column, `ValueError` from `fromisoformat` / `float` /
`int` on malformed content. -/
inductive ParseErr where
  | missingField : String → ParseErr
  | badTimestamp : String → ParseErr
  | badNumber : String → ParseErr
deriving DecidableEq

/-- `row[name]`: raises `KeyError` when the column is absent. -/
def getField (name : String) : Option String → Except ParseErr String
  | some v => Except.ok v
  | none => Except.error (ParseErr.missingField name)

/-- `datetime.fromisoformat(row[name].replace('Z', '+00:00'))`. -/
def reqTimestamp (name : String) (f : Option String) : Except ParseErr DateTime := do
  let v ← getField name f
  match fromisoformat (replaceZ v) with
  | some dt => pure dt
  | none => Except.error (ParseErr.badTimestamp v)

/-- `float(row[name])`. -/
def reqFloat (name : String) (f : Option String) : Except ParseErr ℚ := do
  let v ← getField name f
  match parsePyFloat v with
  | some q => pure q
  | none => Except.error (ParseErr.badNumber v)

/-- `int(row[name])`. -/
def reqInt (name : String) (f : Option String) : Except ParseErr Int := do
  let v ← getField name f
  match parsePyInt v with
  | some n => pure n
  | none => Except.error (ParseErr.badNumber v)

/-- The `not row.get('Ticker')` guard: the column is absent (`None`) or its
value is the empty string. -/
def blankTicker (r : Row) : Bool :=
  match r.ticker with
  | none => true
  | some s => s == ""

/-- The row-to-trade construction of `parse_csv` (analyze_backtests.py
lines 20-32), for a row whose Ticker is non-blank; fields are evaluated in
source order, so the first malformed field raises. -/
def parseTrade (r : Row) : Except ParseErr Trade := do
  let ticker ← getField "Ticker" r.ticker
  let entryTime ← reqTimestamp "EntryTime" r.entryTime
  let exitTime ← reqTimestamp "ExitTime" r.exitTime
  let entryPrice ← reqFloat "EntryPrice" r.entryPrice
  let exitPrice ← reqFloat "ExitPrice" r.exitPrice
  let shares ← reqInt "Shares" r.shares
  let reason ← getField "Reason" r.reason
  let grossPnL ← reqFloat "GrossPnL" r.grossPnL
  let commission ← reqFloat "Commission" r.commission
  let netPnL ← reqFloat "NetPnL" r.netPnL
  pure { ticker, entryTime, exitTime, entryPrice, exitPrice, shares, reason,
         grossPnL, commission, netPnL,
         direction := r.direction.getD "SHORT" }

/-- `parse_csv` over the data rows of one file: blank-Ticker rows are
skipped, any exception from a bad row aborts the whole parse. -/
def parse_csv : List Row → Except ParseErr (List Trade)
  | [] => Except.ok []
  | r :: rs =>
      if blankTicker r then parse_csv rs
      else do
        let t ← parseTrade r
        let ts ← parse_csv rs
        pure (t :: ts)

/-! ### Aggregation -/

/-- The netPnL column of a trade list. -/
def netPnLs (ts : List Trade) : List ℚ := ts.map (·.netPnL)

/-- `[t for t in trades if t['NetPnL'] > 0]`. -/
def winning_trades (ts : List Trade) : List Trade :=
  ts.filter (fun t => decide (0 < t.netPnL))

/-- `[t for t in trades if t['NetPnL'] < 0]`. -/
def losing_trades (ts : List Trade) : List Trade :=
  ts.filter (fun t => decide (t.netPnL < 0))

/-- `sum(1 for t in trades if t['NetPnL'] > 0)`. -/
def wins (ts : List Trade) : Nat := (winning_trades ts).length

/-- `sum(1 for t in trades if t['NetPnL'] < 0)`. -/
def losses (ts : List Trade) : Nat := (losing_trades ts).length

/-- `sum(t['NetPnL'] for t in trades)`. -/
def total_net_pnl (ts : List Trade) : ℚ := (ts.map (·.netPnL)).sum

/-- `sum(t['GrossPnL'] for t in trades)`. -/
def total_gross_pnl (ts : List Trade) : ℚ := (ts.map (·.grossPnL)).sum

/-- `sum(t['Commission'] for t in trades)`. -/
def total_commission (ts : List Trade) : ℚ := (ts.map (·.commission)).sum

/-- `(wins / total_trades * 100) if total_trades > 0 else 0`
(analyze_backtests.py line 100). -/
def win_rate (ts : List Trade) : ℚ :=
  if 0 < ts.length then (wins ts : ℚ) / (ts.length : ℚ) * 100 else 0

/-- Average netPnL of winning trades, `0` when there are none
(analyze_backtests.py line 104). -/
def avg_win (ts : List Trade) : ℚ :=
  if (winning_trades ts).isEmpty then 0
  else (netPnLs (winning_trades ts)).sum / ((winning_trades ts).length : ℚ)

/-- Average netPnL of losing trades, `0` when there are none
(analyze_backtests.py line 105). -/
def avg_loss (ts : List Trade) : ℚ :=
  if (losing_trades ts).isEmpty then 0
  else (netPnLs (losing_trades ts)).sum / ((losing_trades ts).length : ℚ)

/-- Python `max(iterable, default=d)`: the default is used only when the
sequence is empty; otherwise it is the maximum of the elements alone. -/
def pyMax (d : ℚ) : List ℚ → ℚ
  | [] => d
  | x :: xs => xs.foldl max x

/-- Python `min(iterable, default=d)`. -/
def pyMin (d : ℚ) : List ℚ → ℚ
  | [] => d
  | x :: xs => xs.foldl min x

/-- `max((t['NetPnL'] for t in trades), default=0)`
(analyze_backtests.py line 61). -/
def largest_win (ts : List Trade) : ℚ := pyMax 0 (netPnLs ts)

/-- `min((t['NetPnL'] for t in trades), default=0)`
(analyze_backtests.py line 62). -/
def largest_loss (ts : List Trade) : ℚ := pyMin 0 (netPnLs ts)

/-- `(total_commission / abs(total_net_pnl) * 100) if total_net_pnl != 0
else 0` (analyze_backtests.py line 203). -/
def commission_pct (ts : List Trade) : ℚ :=
  if total_net_pnl ts ≠ 0 then total_commission ts / |total_net_pnl ts| * 100 else 0

/-- The single-pass reduction fields of `analyze_backtests`
(lines 46-62): counts, win/loss counts, P&L and commission totals, and the
largest win / largest loss. -/
structure AggregateStats where
  count : Nat
  winCount : Nat
  lossCount : Nat
  totalNetPnL : ℚ
  totalGrossPnL : ℚ
  totalCommission : ℚ
  largestWin : ℚ
  largestLoss : ℚ
deriving DecidableEq

/-- The reduction of one trade list into its `AggregateStats`. -/
def aggregate (ts : List Trade) : AggregateStats where
  count := ts.length
  winCount := wins ts
  lossCount := losses ts
  totalNetPnL := total_net_pnl ts
  totalGrossPnL := total_gross_pnl ts
  totalCommission := total_commission ts
  largestWin := largest_win ts
  largestLoss := largest_loss ts

/-- Modelled from the claim: the sum-merge of two partial aggregates —
counts and totals add, largest win / largest loss take the maximum /
minimum across the two parts. -/
def mergeStats (a b : AggregateStats) : AggregateStats where
  count := a.count + b.count
  winCount := a.winCount + b.winCount
  lossCount := a.lossCount + b.lossCount
  totalNetPnL := a.totalNetPnL + b.totalNetPnL
  totalGrossPnL := a.totalGrossPnL + b.totalGrossPnL
  totalCommission := a.totalCommission + b.totalCommission
  largestWin := max a.largestWin b.largestWin
  largestLoss := min a.largestLoss b.largestLoss

/-! ### Exit-reason segments (analyze_backtests.py lines 120-128) -/

/-- Trades of one exit-reason segment. -/
def reasonTrades (ts : List Trade) (reason : String) : List Trade :=
  ts.filter (fun t => t.reason == reason)

/-- Segment trade count. -/
def reasonCount (ts : List Trade) (reason : String) : Nat :=
  (reasonTrades ts reason).length

/-- Segment wins: the `NetPnL > 0` branch of lines 125-126. -/
def reasonWins (ts : List Trade) (reason : String) : Nat :=
  ((reasonTrades ts reason).filter (fun t => decide (0 < t.netPnL))).length

/-- Segment losses: the `else` branch of lines 127-128 — incremented
whenever `NetPnL > 0` fails, zero netPnL included. -/
def reasonLosses (ts : List Trade) (reason : String) : Nat :=
  ((reasonTrades ts reason).filter (fun t => !(decide (0 < t.netPnL)))).length

/-! ### Reason subsets and the improvement rules -/

/-- Python `needle in hay` substring containment. -/
def hasSub (needle hay : String) : Bool :=
  decide (needle.data <:+: hay.data)

/-- `[t for t in all_trades if t['Reason'] == 'End of Day']` (line 140). -/
def eod_trades (ts : List Trade) : List Trade :=
  ts.filter (fun t => t.reason == "End of Day")

/-- `[t for t in all_trades if 'Stop Loss' in t['Reason']]` (line 154). -/
def stop_loss_trades (ts : List Trade) : List Trade :=
  ts.filter (fun t => hasSub "Stop Loss" t.reason)

/-- `[t for t in all_trades if 'Trailing Stop' in t['Reason']]` (line 174). -/
def trailing_stop_trades (ts : List Trade) : List Trade :=
  ts.filter (fun t => hasSub "Trailing Stop" t.reason)

/-- `[t for t in all_trades if 'Target' in t['Reason']]` (line 188). -/
def target_trades (ts : List Trade) : List Trade :=
  ts.filter (fun t => hasSub "Target" t.reason)

/-- Improvement rule 1 (line 303): `eod_trades` non-empty and its length
exceeds `total_trades * 0.2` (`0.2` as the exact rational; on integer
counts the double-precision comparison decides identically). -/
def eodRuleFires (ts : List Trade) : Bool :=
  !(eod_trades ts).isEmpty &&
    decide ((ts.length : ℚ) * (2 / 10) < ((eod_trades ts).length : ℚ))

/-! ### Time and duration segmentation -/

/-- `(trade['ExitTime'] - trade['EntryTime']).total_seconds() / 60`
(line 277). -/
def duration (t : Trade) : ℚ :=
  ((t.exitTime.toEpochSeconds - t.entryTime.toEpochSeconds : Int) : ℚ) / 60

/-- The three duration buckets of lines 284-286. -/
inductive DurationBucket where
  | short : DurationBucket
  | medium : DurationBucket
  | long : DurationBucket
deriving DecidableEq

/-- Bucket selection mirroring the filter conditions of lines 284-286:
`d < 30`, `30 <= d < 120`, `d >= 120`. -/
def durationBucket (d : ℚ) : DurationBucket :=
  if d < 30 then DurationBucket.short
  else if d < 120 then DurationBucket.medium
  else DurationBucket.long

/-! ### Generic partitioning (the defaultdict segmentations) -/

/-- The trades a key function sends to one key: the partition underlying
each defaultdict segmentation (exit reason, entry hour, ticker, duration
bucket). -/
def keyGroup {κ : Type} [DecidableEq κ] (ts : List Trade) (f : Trade → κ) (k : κ) :
    List Trade :=
  ts.filter (fun t => decide (f t = k))

/-- The keys that actually occur in a trade list — a defaultdict only ever
creates entries for keys some trade touched.  First-occurrence order,
deduplicated. -/
def occurringKeys {κ : Type} [DecidableEq κ] (ts : List Trade) (f : Trade → κ) :
    List κ :=
  (ts.map f).dedup

/-! ### Concrete sample data used in witnesses and counterexamples -/

/-- A fixed timestamp for synthetic trades. -/
def sampleTime : DateTime := ⟨2024, 1, 5, 15, 30, 0, 0⟩

/-- A synthetic trade with a given exit reason and net P&L. -/
def mkTrade (reason : String) (pnl : ℚ) : Trade :=
  { ticker := "AAPL", entryTime := sampleTime, exitTime := sampleTime,
    entryPrice := 10, exitPrice := 11, shares := 5, reason := reason,
    grossPnL := pnl, commission := 0, netPnL := pnl, direction := "LONG" }

/-- A well-formed input row whose Direction column is present but empty. -/
def rowEmptyDir : Row :=
  { ticker := some "AAPL", entryTime := some "2024-01-05T15:30:00Z",
    exitTime := some "2024-01-05T15:45:00Z", entryPrice := some "10.5",
    exitPrice := some "11.25", shares := some "100", reason := some "Target 1",
    grossPnL := some "75.0", commission := some "1.5", netPnL := some "73.5",
    direction := some "" }

/-- The trade `rowEmptyDir` parses to. -/
def tradeEmptyDir : Trade :=
  { ticker := "AAPL", entryTime := ⟨2024, 1, 5, 15, 30, 0, 0⟩,
    exitTime := ⟨2024, 1, 5, 15, 45, 0, 0⟩,
    entryPrice := 21 / 2, exitPrice := 45 / 4, shares := 100,
    reason := "Target 1", grossPnL := 75, commission := 3 / 2,
    netPnL := 147 / 2, direction := "" }

/-- `rowEmptyDir` with the Direction column absent. -/
def rowNoDir : Row := { rowEmptyDir with direction := none }

/-- The trade `rowNoDir` parses to: direction defaulted to `"SHORT"`. -/
def tradeNoDir : Trade := { tradeEmptyDir with direction := "SHORT" }

/-- A row whose ExitTime is strictly earlier than its EntryTime. -/
def negRow : Row :=
  { rowNoDir with entryTime := some "2024-01-05T15:30:00",
                  exitTime := some "2024-01-05T15:00:00" }

/-- The trade `negRow` parses to. -/
def negTrade : Trade :=
  { tradeNoDir with exitTime := ⟨2024, 1, 5, 15, 0, 0, 0⟩ }

/-- A row with a malformed EntryTime timestamp (month 13). -/
def badTsRow : Row := { rowNoDir with entryTime := some "2024-13-05T15:30:00" }

/-- A row with a non-numeric NetPnL field. -/
def badNumRow : Row := { rowNoDir with netPnL := some "oops" }

/-- A row whose Ticker is empty (a blank/separator row). -/
def blankRow : Row := { rowNoDir with ticker := some "" }

/-! ### Helper lemmas -/

theorem parseTrade_direction (r : Row) (t : Trade) (h : parseTrade r = Except.ok t) :
    t.direction = r.direction.getD "SHORT" := by
  unfold parseTrade at h
  simp only [bind, Except.bind, pure, Except.pure] at h
  repeat' split at h
  all_goals cases h
  all_goals rfl

theorem parse_csv_skip (r : Row) (rs : List Row) (hb : blankTicker r = true) :
    parse_csv (r :: rs) = parse_csv rs := by
  simp [parse_csv, hb]

theorem parse_csv_abort (pre : List Row) (r : Row) (post : List Row)
    (hb : blankTicker r = false) (he : (parseTrade r).isOk = false) :
    (parse_csv (pre ++ r :: post)).isOk = false := by
  induction pre with
  | nil =>
    simp only [List.nil_append, parse_csv, hb, if_false]
    cases hpt : parseTrade r with
    | error e => simp [bind, Except.bind, hpt, Except.isOk, Except.toBool]
    | ok t => rw [hpt] at he; simp [Except.isOk, Except.toBool] at he
  | cons q pre ih =>
    by_cases hq : blankTicker q = true
    · rw [List.cons_append, parse_csv_skip q _ hq]; exact ih
    · simp only [List.cons_append, parse_csv, eq_false_of_ne_true hq, if_false]
      cases hpq : parseTrade q with
      | error e => simp [bind, Except.bind, Except.isOk, Except.toBool]
      | ok t =>
        cases hrest : parse_csv (pre ++ r :: post) with
        | error e => simp [bind, Except.bind, hrest, Except.isOk, Except.toBool]
        | ok ts => rw [hrest] at ih; simp [Except.isOk, Except.toBool] at ih

theorem parseTrade_bad_entry (r : Row) (v : String) (hv : r.entryTime = some v)
    (hbad : fromisoformat (replaceZ v) = none) : (parseTrade r).isOk = false := by
  unfold parseTrade
  simp only [bind, Except.bind, pure, Except.pure]
  cases ht : getField "Ticker" r.ticker with
  | error e => simp [Except.isOk, Except.toBool]
  | ok s =>
    have hts : reqTimestamp "EntryTime" r.entryTime
        = Except.error (ParseErr.badTimestamp v) := by
      simp [reqTimestamp, hv, getField, bind, Except.bind, hbad]
    rw [hts]
    simp [Except.isOk, Except.toBool]

theorem replaceZchars_append_z (s : List Char) (hz : 'Z' ∉ s) :
    replaceZchars (s ++ ['Z'])
      = s ++ ('+' :: '0' :: '0' :: ':' :: '0' :: '0' :: []) := by
  induction s with
  | nil => rfl
  | cons c cs ih =>
    have hc : ¬ c = 'Z' := by
      intro h
      exact hz (by rw [← h] at *; exact List.mem_cons_self c cs)
    have hcs : 'Z' ∉ cs := fun h => hz (List.mem_cons_of_mem c h)
    simp [replaceZchars, hc, ih hcs]


theorem length_filter_not_split (l : List Trade) (p : Trade → Bool) :
    (l.filter p).length + (l.filter (fun a => !(p a))).length = l.length := by
  induction l with
  | nil => rfl
  | cons a l ih =>
    simp only [List.filter_cons]
    cases hp : p a <;> simp <;> omega

theorem wins_add_losses_le (ts : List Trade) : wins ts + losses ts ≤ ts.length := by
  unfold wins losses winning_trades losing_trades
  induction ts with
  | nil => simp
  | cons t ts ih =>
    simp only [List.filter_cons]
    rcases lt_trichotomy t.netPnL 0 with h | h | h
    · have h2 : ¬ (0 : ℚ) < t.netPnL := not_lt.mpr h.le
      simp [h, h2]
      omega
    · have h2 : ¬ (0 : ℚ) < t.netPnL := by rw [h]; exact lt_irrefl 0
      have h3 : ¬ t.netPnL < 0 := by rw [h]; exact lt_irrefl 0
      simp [h2, h3]
      omega
    · have h3 : ¬ t.netPnL < 0 := not_lt.mpr h.le
      simp [h, h3]
      omega

theorem foldl_max_init_le (l : List ℚ) (a : ℚ) : a ≤ l.foldl max a := by
  induction l generalizing a with
  | nil => simp
  | cons x xs ih => exact le_trans (le_max_left a x) (ih (max a x))

theorem le_foldl_max_of_mem (l : List ℚ) (a x : ℚ) (hx : x ∈ l) : x ≤ l.foldl max a := by
  induction l generalizing a with
  | nil => cases hx
  | cons y ys ih =>
    rcases List.mem_cons.mp hx with h | h
    · subst h; exact le_trans (le_max_right a x) (foldl_max_init_le ys _)
    · exact ih _ h

theorem foldl_max_mem (l : List ℚ) (a : ℚ) : l.foldl max a = a ∨ l.foldl max a ∈ l := by
  induction l generalizing a with
  | nil => left; rfl
  | cons x xs ih =>
    rcases ih (max a x) with h | h
    · rw [List.foldl_cons, h]
      rcases max_cases a x with ⟨h1, _⟩ | ⟨h1, _⟩
      · left; exact h1
      · right; rw [h1]; exact List.mem_cons_self x xs
    · right; exact List.mem_cons_of_mem x h

theorem foldl_max_max (l : List ℚ) (a b : ℚ) :
    l.foldl max (max a b) = max a (l.foldl max b) := by
  induction l generalizing b with
  | nil => rfl
  | cons x xs ih => rw [List.foldl_cons, List.foldl_cons, max_assoc, ih]

theorem pyMax_append (d : ℚ) (l₁ l₂ : List ℚ) (h₁ : l₁ ≠ []) (h₂ : l₂ ≠ []) :
    pyMax d (l₁ ++ l₂) = max (pyMax d l₁) (pyMax d l₂) := by
  match l₁, l₂ with
  | x :: xs, y :: ys =>
    show ((xs ++ y :: ys).foldl max x) = max (xs.foldl max x) (ys.foldl max y)
    rw [List.foldl_append, List.foldl_cons, foldl_max_max]

theorem foldl_min_init_le (l : List ℚ) (a : ℚ) : l.foldl min a ≤ a := by
  induction l generalizing a with
  | nil => simp
  | cons x xs ih => exact le_trans (ih (min a x)) (min_le_left a x)

theorem foldl_min_le_of_mem (l : List ℚ) (a x : ℚ) (hx : x ∈ l) : l.foldl min a ≤ x := by
  induction l generalizing a with
  | nil => cases hx
  | cons y ys ih =>
    rcases List.mem_cons.mp hx with h | h
    · subst h; exact le_trans (foldl_min_init_le ys _) (min_le_right a x)
    · exact ih _ h

theorem foldl_min_mem (l : List ℚ) (a : ℚ) : l.foldl min a = a ∨ l.foldl min a ∈ l := by
  induction l generalizing a with
  | nil => left; rfl
  | cons x xs ih =>
    rcases ih (min a x) with h | h
    · rw [List.foldl_cons, h]
      rcases min_cases a x with ⟨h1, _⟩ | ⟨h1, _⟩
      · left; exact h1
      · right; rw [h1]; exact List.mem_cons_self x xs
    · right; exact List.mem_cons_of_mem x h

theorem foldl_min_min (l : List ℚ) (a b : ℚ) :
    l.foldl min (min a b) = min a (l.foldl min b) := by
  induction l generalizing b with
  | nil => rfl
  | cons x xs ih => rw [List.foldl_cons, List.foldl_cons, min_assoc, ih]

theorem pyMin_append (d : ℚ) (l₁ l₂ : List ℚ) (h₁ : l₁ ≠ []) (h₂ : l₂ ≠ []) :
    pyMin d (l₁ ++ l₂) = min (pyMin d l₁) (pyMin d l₂) := by
  match l₁, l₂ with
  | x :: xs, y :: ys =>
    show ((xs ++ y :: ys).foldl min x) = min (xs.foldl min x) (ys.foldl min y)
    rw [List.foldl_append, List.foldl_cons, foldl_min_min]

theorem pyMax_spec (d : ℚ) (l : List ℚ) (h : l ≠ []) :
    pyMax d l ∈ l ∧ ∀ x ∈ l, x ≤ pyMax d l := by
  match l with
  | x :: xs =>
    constructor
    · show xs.foldl max x ∈ x :: xs
      rcases foldl_max_mem xs x with h1 | h1
      · rw [h1]; exact List.mem_cons_self x xs
      · exact List.mem_cons_of_mem x h1
    · intro y hy
      rcases List.mem_cons.mp hy with h1 | h1
      · subst h1; exact foldl_max_init_le xs y
      · exact le_foldl_max_of_mem xs x y h1

theorem pyMin_spec (d : ℚ) (l : List ℚ) (h : l ≠ []) :
    pyMin d l ∈ l ∧ ∀ x ∈ l, pyMin d l ≤ x := by
  match l with
  | x :: xs =>
    constructor
    · show xs.foldl min x ∈ x :: xs
      rcases foldl_min_mem xs x with h1 | h1
      · rw [h1]; exact List.mem_cons_self x xs
      · exact List.mem_cons_of_mem x h1
    · intro y hy
      rcases List.mem_cons.mp hy with h1 | h1
      · subst h1; exact foldl_min_init_le xs y
      · exact foldl_min_le_of_mem xs x y h1

theorem keyGroup_length_count {κ : Type} [DecidableEq κ] (ts : List Trade)
    (f : Trade → κ) (k : κ) :
    (keyGroup ts f k).length = (ts.map f).count k := by
  unfold keyGroup
  induction ts with
  | nil => rfl
  | cons t ts ih =>
    by_cases h : f t = k <;>
      simp [List.filter_cons, List.count_cons, h, ih]
/-! ### Claim theorems -/

set_option maxRecDepth 8192

/-- C1 counterexample: in the exit-reason segment statistics a trade with
netPnL = 0 is counted as a loss (the else branch of lines 127-128), not as
neither a win nor a loss as the claim states. -/
theorem C1_counterexample :
    reasonLosses [mkTrade "Stop Loss" 0] "Stop Loss" = 1 ∧
    ((reasonTrades [mkTrade "Stop Loss" 0] "Stop Loss").filter
        (fun t => decide (t.netPnL < 0))).length = 0 := by
  constructor <;> with_unfolding_all decide

/-- C1 amended: in the overall statistics `winCount + lossCount ≤ count`
with zero-netPnL trades counted as neither win nor loss, and both counts
are 0 when the count is 0; in every exit-reason segment a zero-netPnL
trade is counted as a loss, so there `winCount + lossCount = count`
(hence also `≤ count`), and both are 0 when the segment count is 0. -/
theorem C1_win_loss_counts (ts : List Trade) (reason : String) :
    wins ts + losses ts ≤ ts.length ∧
    (ts.length = 0 → wins ts = 0 ∧ losses ts = 0) ∧
    reasonWins ts reason + reasonLosses ts reason = reasonCount ts reason ∧
    (reasonCount ts reason = 0 →
      reasonWins ts reason = 0 ∧ reasonLosses ts reason = 0) := by
  have h1 := wins_add_losses_le ts
  have h2 : reasonWins ts reason + reasonLosses ts reason = reasonCount ts reason :=
    length_filter_not_split (reasonTrades ts reason) _
  refine ⟨h1, fun h0 => ?_, h2, fun h0 => ?_⟩
  · omega
  · omega

/-- C1 witness: the amended statement evaluated at a concrete segment with
one winning, one zero and one losing trade of the same reason. -/
theorem C1_win_loss_counts_witness :
    wins [mkTrade "Stop Loss" 5, mkTrade "Stop Loss" 0, mkTrade "Stop Loss" (-3)]
      + losses [mkTrade "Stop Loss" 5, mkTrade "Stop Loss" 0, mkTrade "Stop Loss" (-3)] ≤ 3 ∧
    reasonWins [mkTrade "Stop Loss" 5, mkTrade "Stop Loss" 0, mkTrade "Stop Loss" (-3)] "Stop Loss"
      + reasonLosses [mkTrade "Stop Loss" 5, mkTrade "Stop Loss" 0, mkTrade "Stop Loss" (-3)] "Stop Loss"
      = reasonCount [mkTrade "Stop Loss" 5, mkTrade "Stop Loss" 0, mkTrade "Stop Loss" (-3)] "Stop Loss" ∧
    (reasonCount [mkTrade "Stop Loss" 5, mkTrade "Stop Loss" 0, mkTrade "Stop Loss" (-3)] "Other" = 0 →
      reasonWins [mkTrade "Stop Loss" 5, mkTrade "Stop Loss" 0, mkTrade "Stop Loss" (-3)] "Other" = 0 ∧
      reasonLosses [mkTrade "Stop Loss" 5, mkTrade "Stop Loss" 0, mkTrade "Stop Loss" (-3)] "Other" = 0) :=
  ⟨(C1_win_loss_counts [mkTrade "Stop Loss" 5, mkTrade "Stop Loss" 0, mkTrade "Stop Loss" (-3)] "Stop Loss").1,
   (C1_win_loss_counts [mkTrade "Stop Loss" 5, mkTrade "Stop Loss" 0, mkTrade "Stop Loss" (-3)] "Stop Loss").2.2.1,
   (C1_win_loss_counts [mkTrade "Stop Loss" 5, mkTrade "Stop Loss" 0, mkTrade "Stop Loss" (-3)] "Other").2.2.2⟩

/-- C2 counterexample: a row whose Direction field is present but empty
parses to a trade whose direction is the empty string, not "SHORT" —
`row.get('Direction', 'SHORT')` only defaults when the column is absent. -/
theorem C2_counterexample :
    (parse_csv [rowEmptyDir]).toOption.map (fun ts => ts.map (·.direction))
      = some [""] ∧ ("" : String) ≠ "SHORT" := by
  constructor
  · with_unfolding_all decide
  · decide

/-- C2 amended: for every row that parses into a trade, the direction is
"SHORT" exactly when the Direction column is absent; any present value —
the empty string included — is kept verbatim. -/
theorem C2_direction_default (r : Row) (t : Trade) (h : parseTrade r = Except.ok t) :
    (r.direction = none → t.direction = "SHORT") ∧
    (∀ s, r.direction = some s → t.direction = s) := by
  have hd := parseTrade_direction r t h
  constructor
  · intro hn; rw [hd, hn]; rfl
  · intro s hs; rw [hd, hs]; rfl

/-- C2 witness: the amended statement at a concrete row with the Direction
column absent; the parsed direction is "SHORT". -/
theorem C2_direction_default_witness : tradeNoDir.direction = "SHORT" :=
  (C2_direction_default rowNoDir tradeNoDir (by with_unfolding_all rfl)).1 rfl

/-- C3: the "EOD exits" rule (line 303) fires iff eodCount * 5 exceeds the
total trade count; at exactly 20% it does not fire, and strictly above 20%
it fires. -/
theorem C3_eod_rule (ts : List Trade) :
    (eodRuleFires ts = true ↔ (eod_trades ts).length * 5 > ts.length) ∧
    ((eod_trades ts).length * 5 = ts.length → eodRuleFires ts = false) ∧
    ((ts.length : ℚ) / 5 < ((eod_trades ts).length : ℚ) → eodRuleFires ts = true) := by
  have hkey : ((ts.length : ℚ) * (2 / 10) < ((eod_trades ts).length : ℚ))
      ↔ ts.length < (eod_trades ts).length * 5 := by
    constructor
    · intro h
      have h2 : (ts.length : ℚ) < ((eod_trades ts).length : ℚ) * 5 := by nlinarith
      exact_mod_cast h2
    · intro h
      have h2 : (ts.length : ℚ) < ((eod_trades ts).length : ℚ) * 5 := by exact_mod_cast h
      nlinarith
  have hfire : eodRuleFires ts = true ↔ ts.length < (eod_trades ts).length * 5 := by
    unfold eodRuleFires
    rw [Bool.and_eq_true, decide_eq_true_eq]
    constructor
    · rintro ⟨_, h2⟩; exact hkey.mp h2
    · intro h
      refine ⟨?_, hkey.mpr h⟩
      have he : (eod_trades ts).length ≠ 0 := by intro h0; rw [h0] at h; omega
      cases hE : eod_trades ts with
      | nil => rw [hE] at he; simp at he
      | cons a l => simp
  refine ⟨hfire, fun h0 => ?_, fun h5 => ?_⟩
  · cases hf : eodRuleFires ts
    · rfl
    · exact absurd (hfire.mp hf) (by omega)
  · refine hfire.mpr ?_
    have h2 : (ts.length : ℚ) < ((eod_trades ts).length : ℚ) * 5 := by
      rw [div_lt_iff₀ (by norm_num : (0:ℚ) < 5)] at h5
      linarith
    exact_mod_cast h2

/-- C3 witness: with 1 EOD trade out of 5 (exactly 20%) the rule does not
fire; with 1 out of 4 (25%) it fires. -/
theorem C3_eod_rule_witness :
    eodRuleFires [mkTrade "End of Day" 1, mkTrade "x" 1, mkTrade "x" 1,
      mkTrade "x" 1, mkTrade "x" 1] = false ∧
    eodRuleFires [mkTrade "End of Day" 1, mkTrade "x" 1, mkTrade "x" 1,
      mkTrade "x" 1] = true :=
  ⟨(C3_eod_rule [mkTrade "End of Day" 1, mkTrade "x" 1, mkTrade "x" 1,
      mkTrade "x" 1, mkTrade "x" 1]).2.1 (by decide),
   (C3_eod_rule [mkTrade "End of Day" 1, mkTrade "x" 1, mkTrade "x" 1,
      mkTrade "x" 1]).1.mpr (by decide)⟩

/-- C4: membership in the Stop Loss / Trailing Stop / Target subsets is
substring containment of the label in the trade's reason, membership in
the End of Day subset is exact string equality; the reason
"Trailing Stop - Target 1" lands in both the trailing-stop and the target
subsets, and not in the EOD subset. -/
theorem C4_subset_matching (ts : List Trade) (t : Trade) :
    (t ∈ stop_loss_trades ts ↔ t ∈ ts ∧ "Stop Loss".data <:+: t.reason.data) ∧
    (t ∈ trailing_stop_trades ts ↔ t ∈ ts ∧ "Trailing Stop".data <:+: t.reason.data) ∧
    (t ∈ target_trades ts ↔ t ∈ ts ∧ "Target".data <:+: t.reason.data) ∧
    (t ∈ eod_trades ts ↔ t ∈ ts ∧ t.reason = "End of Day") ∧
    mkTrade "Trailing Stop - Target 1" 5 ∈
      trailing_stop_trades [mkTrade "Trailing Stop - Target 1" 5] ∧
    mkTrade "Trailing Stop - Target 1" 5 ∈
      target_trades [mkTrade "Trailing Stop - Target 1" 5] ∧
    mkTrade "Trailing Stop - Target 1" 5 ∉
      eod_trades [mkTrade "Trailing Stop - Target 1" 5] := by
  refine ⟨?_, ?_, ?_, ?_, ?_, ?_, ?_⟩
  · simp [stop_loss_trades, hasSub, List.mem_filter]
  · simp [trailing_stop_trades, hasSub, List.mem_filter]
  · simp [target_trades, hasSub, List.mem_filter]
  · simp [eod_trades, List.mem_filter]
  · with_unfolding_all decide
  · with_unfolding_all decide
  · with_unfolding_all decide

/-- C4 witness: the membership characterizations applied at concrete
trades — a "Stop Loss - big" reason lands in the stop-loss subset by
containment, and the closed conjuncts for "Trailing Stop - Target 1". -/
theorem C4_subset_matching_witness :
    mkTrade "Stop Loss - big" 1 ∈ stop_loss_trades [mkTrade "Stop Loss - big" 1] ∧
    mkTrade "Trailing Stop - Target 1" 5 ∈
      target_trades [mkTrade "Trailing Stop - Target 1" 5] :=
  ⟨(C4_subset_matching [mkTrade "Stop Loss - big" 1]
      (mkTrade "Stop Loss - big" 1)).1.mpr
      ⟨by with_unfolding_all decide, by decide⟩,
   (C4_subset_matching [] (mkTrade "x" 0)).2.2.2.2.2.1⟩

/-- C5: the win rate lies in [0, 100] and is 0 for an empty trade list;
average win / average loss are 0 when there are no winning / losing
trades; the commission percentage is 0 when the total net P&L is 0.
No division ever has a zero denominator. -/
theorem C5_division_policy (ts : List Trade) :
    0 ≤ win_rate ts ∧ win_rate ts ≤ 100 ∧
    (ts.length = 0 → win_rate ts = 0) ∧
    ((winning_trades ts).length = 0 → avg_win ts = 0) ∧
    ((losing_trades ts).length = 0 → avg_loss ts = 0) ∧
    (total_net_pnl ts = 0 → commission_pct ts = 0) := by
  have hw : wins ts ≤ ts.length := by
    have := wins_add_losses_le ts; omega
  refine ⟨?_, ?_, fun h0 => ?_, fun h0 => ?_, fun h0 => ?_, fun h0 => ?_⟩
  · unfold win_rate
    split
    · positivity
    · exact le_refl 0
  · unfold win_rate
    split
    case isTrue h =>
      have hn : (0:ℚ) < (ts.length : ℚ) := by exact_mod_cast h
      have h1 : (wins ts : ℚ) / (ts.length : ℚ) ≤ 1 :=
        (div_le_one hn).mpr (by exact_mod_cast hw)
      calc (wins ts : ℚ) / (ts.length : ℚ) * 100 ≤ 1 * 100 :=
            mul_le_mul_of_nonneg_right h1 (by norm_num)
        _ = 100 := by norm_num
    case isFalse h => norm_num
  · unfold win_rate; rw [h0]; simp
  · have hnil : winning_trades ts = [] := List.length_eq_zero.mp h0
    simp [avg_win, hnil]
  · have hnil : losing_trades ts = [] := List.length_eq_zero.mp h0
    simp [avg_loss, hnil]
  · simp [commission_pct, h0]

/-- C5 witness: the division policy evaluated at the empty trade list,
where every denominator is 0. -/
theorem C5_division_policy_witness :
    win_rate [] = 0 ∧ avg_win [] = 0 ∧ avg_loss [] = 0 ∧ commission_pct [] = 0 :=
  ⟨(C5_division_policy []).2.2.1 rfl,
   (C5_division_policy []).2.2.2.1 rfl,
   (C5_division_policy []).2.2.2.2.1 rfl,
   (C5_division_policy []).2.2.2.2.2 (by with_unfolding_all decide)⟩

/-- C6: blank-Ticker rows are skipped silently (the parse of the remaining
rows is unchanged, so such rows reach no downstream statistic); a
non-blank row whose construction raises aborts the whole parse wherever
the row occurs (no malformed row is skipped); a present EntryTime whose
normalized text does not parse raises; replacing a trailing Z yields the
explicit +00:00 offset text, and a Z-suffixed timestamp parses with
offset 0. -/
theorem C6_parse_error_policy (r : Row) (pre post : List Row) (s : List Char) :
    (blankTicker r = true → parse_csv (r :: post) = parse_csv post) ∧
    (blankTicker r = false → (parseTrade r).isOk = false →
      (parse_csv (pre ++ r :: post)).isOk = false) ∧
    (∀ v, r.entryTime = some v → fromisoformat (replaceZ v) = none →
      (parseTrade r).isOk = false) ∧
    ('Z' ∉ s → replaceZchars (s ++ ['Z'])
      = s ++ ('+' :: '0' :: '0' :: ':' :: '0' :: '0' :: [])) ∧
    fromisoformat (replaceZ "2024-01-05T15:30:00Z")
      = some ⟨2024, 1, 5, 15, 30, 0, 0⟩ :=
  ⟨fun hb => parse_csv_skip r post hb,
   fun hb he => parse_csv_abort pre r post hb he,
   fun v hv hbad => parseTrade_bad_entry r v hv hbad,
   fun hz => replaceZchars_append_z s hz,
   by decide⟩

/-- C6 witness: a concrete blank row is skipped; a malformed-timestamp row
and a non-numeric-NetPnL row each abort the parse wherever they occur. -/
theorem C6_parse_error_policy_witness :
    parse_csv (blankRow :: [rowNoDir]) = parse_csv [rowNoDir] ∧
    (parse_csv ([rowNoDir] ++ badTsRow :: [])).isOk = false ∧
    (parse_csv ([] ++ badNumRow :: [])).isOk = false ∧
    (parseTrade badTsRow).isOk = false ∧
    replaceZchars (['a'] ++ ['Z'])
      = ['a'] ++ ('+' :: '0' :: '0' :: ':' :: '0' :: '0' :: []) :=
  ⟨(C6_parse_error_policy blankRow [] [rowNoDir] []).1 (by decide),
   (C6_parse_error_policy badTsRow [rowNoDir] [] []).2.1 (by decide)
     ((C6_parse_error_policy badTsRow [] [] []).2.2.1
        "2024-13-05T15:30:00" rfl (by decide)),
   (C6_parse_error_policy badNumRow [] [] []).2.1 (by decide) (by decide),
   (C6_parse_error_policy badTsRow [] [] []).2.2.1
     "2024-13-05T15:30:00" rfl (by decide),
   (C6_parse_error_policy blankRow [] [] ['a']).2.2.2.1 (by decide)⟩

/-- C7 counterexample: with an empty left part and one losing trade on the
right, the concatenation's largest win is -5 while the max-merge of the
two partial aggregates reports 0 (the empty part's sentinel), so the
merge law fails for that field on empty parts. -/
theorem C7_counterexample :
    aggregate ([] ++ [mkTrade "Stop Loss" (-5)]) ≠
      mergeStats (aggregate []) (aggregate [mkTrade "Stop Loss" (-5)]) := by
  with_unfolding_all decide

/-- C7 amended: counts, win/loss counts and the three monetary totals of
the concatenation always equal the sums of the parts; the full sum-merge
(largest win/largest loss by max/min included) holds whenever both parts
are non-empty. -/
theorem C7_merge (xs ys : List Trade) :
    (aggregate (xs ++ ys)).count = (aggregate xs).count + (aggregate ys).count ∧
    (aggregate (xs ++ ys)).winCount
      = (aggregate xs).winCount + (aggregate ys).winCount ∧
    (aggregate (xs ++ ys)).lossCount
      = (aggregate xs).lossCount + (aggregate ys).lossCount ∧
    (aggregate (xs ++ ys)).totalNetPnL
      = (aggregate xs).totalNetPnL + (aggregate ys).totalNetPnL ∧
    (aggregate (xs ++ ys)).totalGrossPnL
      = (aggregate xs).totalGrossPnL + (aggregate ys).totalGrossPnL ∧
    (aggregate (xs ++ ys)).totalCommission
      = (aggregate xs).totalCommission + (aggregate ys).totalCommission ∧
    (xs ≠ [] → ys ≠ [] →
      aggregate (xs ++ ys) = mergeStats (aggregate xs) (aggregate ys)) := by
  have hlen : (xs ++ ys).length = xs.length + ys.length := List.length_append xs ys
  have hwin : wins (xs ++ ys) = wins xs + wins ys := by
    unfold wins winning_trades
    rw [List.filter_append, List.length_append]
  have hloss : losses (xs ++ ys) = losses xs + losses ys := by
    unfold losses losing_trades
    rw [List.filter_append, List.length_append]
  have hnet : total_net_pnl (xs ++ ys) = total_net_pnl xs + total_net_pnl ys := by
    unfold total_net_pnl
    rw [List.map_append, List.sum_append]
  have hgross : total_gross_pnl (xs ++ ys)
      = total_gross_pnl xs + total_gross_pnl ys := by
    unfold total_gross_pnl
    rw [List.map_append, List.sum_append]
  have hcomm : total_commission (xs ++ ys)
      = total_commission xs + total_commission ys := by
    unfold total_commission
    rw [List.map_append, List.sum_append]
  refine ⟨hlen, hwin, hloss, hnet, hgross, hcomm, fun hx hy => ?_⟩
  have hmx : netPnLs xs ≠ [] := by simpa [netPnLs] using hx
  have hmy : netPnLs ys ≠ [] := by simpa [netPnLs] using hy
  have hmap : netPnLs (xs ++ ys) = netPnLs xs ++ netPnLs ys := List.map_append _ xs ys
  have hlw : largest_win (xs ++ ys) = max (largest_win xs) (largest_win ys) := by
    unfold largest_win
    rw [hmap]
    exact pyMax_append 0 _ _ hmx hmy
  have hll : largest_loss (xs ++ ys) = min (largest_loss xs) (largest_loss ys) := by
    unfold largest_loss
    rw [hmap]
    exact pyMin_append 0 _ _ hmx hmy
  simp only [aggregate, mergeStats, AggregateStats.mk.injEq]
  exact ⟨hlen, hwin, hloss, hnet, hgross, hcomm, hlw, hll⟩

/-- C7 witness: the full sum-merge at two concrete non-empty parts. -/
theorem C7_merge_witness :
    aggregate ([mkTrade "a" 3] ++ [mkTrade "b" (-2)])
      = mergeStats (aggregate [mkTrade "a" 3]) (aggregate [mkTrade "b" (-2)]) :=
  (C7_merge [mkTrade "a" 3] [mkTrade "b" (-2)]).2.2.2.2.2.2
    (by decide) (by decide)

/-- C8: every trade lands in the partition of its own key and only there
(partitions are exhaustive and disjoint); the partition counts over the
occurring keys sum to the total trade count; an occurring key's partition
is never empty (keys with zero members never appear); the duration-bucket
conditions of lines 284-286 are exhaustive and mutually exclusive with
half-open bounds. -/
theorem C8_partition {κ : Type} [DecidableEq κ] (ts : List Trade) (f : Trade → κ)
    (t : Trade) (k : κ) (d : ℚ) :
    (t ∈ ts → t ∈ keyGroup ts f (f t)) ∧
    (t ∈ keyGroup ts f k → t ∈ ts ∧ f t = k) ∧
    ((occurringKeys ts f).map (fun j => (keyGroup ts f j).length)).sum = ts.length ∧
    (k ∈ occurringKeys ts f → keyGroup ts f k ≠ []) ∧
    (durationBucket d = DurationBucket.short ↔ d < 30) ∧
    (durationBucket d = DurationBucket.medium ↔ 30 ≤ d ∧ d < 120) ∧
    (durationBucket d = DurationBucket.long ↔ 120 ≤ d) := by
  refine ⟨fun ht => ?_, fun ht => ?_, ?_, fun hk hnil => ?_, ?_, ?_, ?_⟩
  · exact List.mem_filter.mpr ⟨ht, by simp⟩
  · have hm := List.mem_filter.mp ht
    exact ⟨hm.1, by simpa using hm.2⟩
  · have hpt : ∀ j ∈ (ts.map f).dedup,
        (keyGroup ts f j).length = List.count j (ts.map f) :=
      fun j _ => keyGroup_length_count ts f j
    unfold occurringKeys
    rw [List.map_congr_left hpt]
    rw [show ts.length = (ts.map f).length from (List.length_map ts f).symm]
    exact List.sum_map_count_dedup_eq_length (ts.map f)
  · have hk2 : k ∈ ts.map f := List.mem_dedup.mp hk
    obtain ⟨u, hu, hfu⟩ := List.mem_map.mp hk2
    have hmem : u ∈ keyGroup ts f k := List.mem_filter.mpr ⟨hu, by simp [hfu]⟩
    rw [hnil] at hmem
    cases hmem
  · constructor
    · intro h
      by_contra hc
      unfold durationBucket at h
      rw [if_neg hc] at h
      split_ifs at h
    · intro h
      unfold durationBucket
      rw [if_pos h]
  · constructor
    · intro h
      unfold durationBucket at h
      split_ifs at h with h1 h2
      exact ⟨not_lt.mp h1, h2⟩
    · rintro ⟨ha, hb⟩
      unfold durationBucket
      rw [if_neg (not_lt.mpr ha), if_pos hb]
  · constructor
    · intro h
      unfold durationBucket at h
      split_ifs at h with h1 h2
      exact not_lt.mp h2
    · intro h
      unfold durationBucket
      rw [if_neg (not_lt.mpr (by linarith)), if_neg (not_lt.mpr (by linarith))]

/-- C8 witness: the partition properties at a concrete two-trade list keyed
by exit reason, and the bucket function at a concrete duration. -/
theorem C8_partition_witness :
    mkTrade "A" 1 ∈ keyGroup [mkTrade "A" 1, mkTrade "B" 2]
      (fun t => t.reason) "A" ∧
    ((occurringKeys [mkTrade "A" 1, mkTrade "B" 2] (fun t => t.reason)).map
      (fun j => (keyGroup [mkTrade "A" 1, mkTrade "B" 2]
        (fun t => t.reason) j).length)).sum = 2 ∧
    keyGroup [mkTrade "A" 1, mkTrade "B" 2] (fun t => t.reason) "A" ≠ [] ∧
    durationBucket 150 = DurationBucket.long :=
  ⟨(C8_partition [mkTrade "A" 1, mkTrade "B" 2] (fun t => t.reason)
      (mkTrade "A" 1) "A" 0).1 (by with_unfolding_all decide),
   (C8_partition [mkTrade "A" 1, mkTrade "B" 2] (fun t => t.reason)
      (mkTrade "A" 1) "A" 0).2.2.1,
   (C8_partition [mkTrade "A" 1, mkTrade "B" 2] (fun t => t.reason)
      (mkTrade "A" 1) "A" 0).2.2.2.1 (by with_unfolding_all decide),
   (C8_partition [mkTrade "A" 1, mkTrade "B" 2] (fun t => t.reason)
      (mkTrade "A" 1) "A" 150).2.2.2.2.2.2.mpr (by with_unfolding_all decide)⟩

/-- C9: a row whose ExitTime is strictly earlier than its EntryTime parses
successfully into a trade, the trade's duration is -30 minutes, and the
duration-bucket conditions place it in the short (< 30 min) bucket and in
no other. -/
theorem C9_negative_duration :
    parse_csv [negRow] = Except.ok [negTrade] ∧
    duration negTrade = -30 ∧
    duration negTrade < 30 ∧
    ¬ (30 ≤ duration negTrade ∧ duration negTrade < 120) ∧
    ¬ 120 ≤ duration negTrade ∧
    durationBucket (duration negTrade) = DurationBucket.short := by
  refine ⟨by with_unfolding_all rfl, ?_, ?_, ?_, ?_, ?_⟩ <;> with_unfolding_all decide

/-- C10: largest win / largest loss are 0 for the empty list and otherwise
the maximum / minimum netPnL over all trades, not over winners / losers
only: an all-negative list has a negative largest win and an all-positive
list has a positive largest loss. -/
theorem C10_largest_extrema (ts : List Trade) :
    largest_win ([] : List Trade) = 0 ∧
    largest_loss ([] : List Trade) = 0 ∧
    (ts ≠ [] →
      largest_win ts ∈ netPnLs ts ∧ (∀ t ∈ ts, t.netPnL ≤ largest_win ts) ∧
      largest_loss ts ∈ netPnLs ts ∧ (∀ t ∈ ts, largest_loss ts ≤ t.netPnL)) ∧
    (ts ≠ [] → (∀ t ∈ ts, t.netPnL < 0) → largest_win ts < 0) ∧
    (ts ≠ [] → (∀ t ∈ ts, 0 < t.netPnL) → 0 < largest_loss ts) := by
  have hmain : ts ≠ [] →
      largest_win ts ∈ netPnLs ts ∧ (∀ t ∈ ts, t.netPnL ≤ largest_win ts) ∧
      largest_loss ts ∈ netPnLs ts ∧ (∀ t ∈ ts, largest_loss ts ≤ t.netPnL) := by
    intro h
    have hm : netPnLs ts ≠ [] := by simpa [netPnLs] using h
    obtain ⟨hmem, hub⟩ := pyMax_spec 0 (netPnLs ts) hm
    obtain ⟨hmem2, hlb⟩ := pyMin_spec 0 (netPnLs ts) hm
    exact ⟨hmem, fun t ht => hub _ (List.mem_map_of_mem _ ht), hmem2,
      fun t ht => hlb _ (List.mem_map_of_mem _ ht)⟩
  refine ⟨rfl, rfl, hmain, fun h hneg => ?_, fun h hpos => ?_⟩
  · obtain ⟨hmem, -, -, -⟩ := hmain h
    obtain ⟨u, hu, hval⟩ := List.mem_map.mp hmem
    rw [← hval]
    exact hneg u hu
  · obtain ⟨-, -, hmem, -⟩ := hmain h
    obtain ⟨u, hu, hval⟩ := List.mem_map.mp hmem
    rw [← hval]
    exact hpos u hu

/-- C10 witness: an all-negative list has a negative largest win; an
all-positive list has a positive largest loss; the largest win is one of
the trades' netPnL values. -/
theorem C10_largest_extrema_witness :
    largest_win [mkTrade "a" (-4), mkTrade "b" (-7)] < 0 ∧
    0 < largest_loss [mkTrade "c" 6, mkTrade "d" 2] ∧
    largest_win [mkTrade "a" (-4), mkTrade "b" (-7)]
      ∈ netPnLs [mkTrade "a" (-4), mkTrade "b" (-7)] :=
  ⟨(C10_largest_extrema [mkTrade "a" (-4), mkTrade "b" (-7)]).2.2.2.1
      (by decide) (by with_unfolding_all decide),
   (C10_largest_extrema [mkTrade "c" 6, mkTrade "d" 2]).2.2.2.2
      (by decide) (by with_unfolding_all decide),
   ((C10_largest_extrema [mkTrade "a" (-4), mkTrade "b" (-7)]).2.2.1
      (by decide)).1⟩

end Backtest
